import Mathlib

set_option maxRecDepth 200000

/-!
# Verification of the Inkora content-acquisition core

A shallow embedding, in Lean 4, of the content-acquisition subsystem of the
Inkora repository: the transport layer (`src/services/networkUtils.js` and the
fetch helper of the Bato backend), the pattern-based markup extractor and the
Bato backend (`batoService`), the two-tier cache (`cacheManager`), the source
registry (`src/services/sourceManager.js`) and the Xbato backend
(`xbatoService`).  Every definition is translated from the JavaScript source;
doc comments name the function a definition embeds.  Times are modelled as
natural numbers of milliseconds, remote I/O as explicit outcome oracles, and
JavaScript exceptions as explicit error results.
-/

namespace Inkora

/-! ## String helpers

JavaScript primitives used by the sources (`String.prototype.includes`,
`toLowerCase`, `trim`, `split`, truthiness of strings).  All repository
string data is ASCII, so ASCII-only case folding is a faithful model. -/

/-- Case-insensitive character comparison (ASCII), used for `/i` regex flags. -/
def ciCharEq (a b : Char) : Bool := a.toLower == b.toLower

/-- `needle.isPrefixOf hay` on character lists (case-sensitive). -/
def listPrefixOf : List Char → List Char → Bool
  | [], _ => true
  | _ :: _, [] => false
  | a :: as, b :: bs => a == b && listPrefixOf as bs

/-- `hay` contains `needle` as a contiguous substring (case-sensitive);
models `String.prototype.includes`. -/
def listContains (needle : List Char) : List Char → Bool
  | [] => listPrefixOf needle []
  | c :: rest => listPrefixOf needle (c :: rest) || listContains needle rest

/-- `s.includes(sub)` of JavaScript. -/
def jsIncludes (s sub : String) : Bool := listContains sub.data s.data

/-- `s.toLowerCase()` of JavaScript (ASCII). -/
def jsToLower (s : String) : String := String.mk (s.data.map Char.toLower)

/-- The whitespace class of JavaScript (`\s`, and the set removed by
`String.prototype.trim`), restricted to the characters that can occur in the
repository's ASCII data plus NBSP. -/
def jsIsSpace (c : Char) : Bool :=
  c == ' ' || c == '\t' || c == '\n' || c == '\r' || c == '\x0b' || c == '\x0c' || c == ' '

/-- `s.trim()` of JavaScript. -/
def jsTrim (s : String) : String :=
  String.mk (((s.data.dropWhile jsIsSpace).reverse.dropWhile jsIsSpace).reverse)

/-- `s.startsWith(p)` of JavaScript. -/
def jsStartsWith (s p : String) : Bool := listPrefixOf p.data s.data

/-! ## Transport model (`src/services/networkUtils.js`)

A single HTTP attempt either throws (connection failure, timeout) or produces
a response; the relevant response data are the status code, the `server`
header and the body text.  A whole call is driven by an oracle assigning an
outcome to each attempt number. -/

/-- The data of a fetch `Response` that the transport inspects: status code,
`server` header, body text. -/
structure Resp where
  status : Nat
  server : String
  body : String
deriving DecidableEq, Repr

/-- `response.ok` of JavaScript: status in the range 200–299. -/
def respOk (r : Resp) : Bool := 200 ≤ r.status && r.status < 300

/-- The outcome of one fetch attempt: a thrown error (connection failure or
timeout) or a response. -/
inductive Outcome where
  | exn (msg : String)
  | resp (r : Resp)
deriving DecidableEq, Repr

/-- The result of a whole transport call: a returned response or a thrown
error. -/
inductive FetchResult where
  | ok (r : Resp)
  | err (msg : String)
deriving DecidableEq, Repr

/-- `isCloudflareChallenge(response, responseText)` of `networkUtils.js`:
status 403 or 503, a `server` header naming cloudflare, and one of five
challenge markers in the body text. -/
def isCloudflareChallenge (response : Resp) (responseText : String) : Bool :=
  let serverHeader := jsToLower response.server
  if (response.status == 403 || response.status == 503) &&
      (jsIncludes serverHeader "cloudflare" || jsIncludes serverHeader "cloudflare-nginx") then
    jsIncludes responseText "cloudflare" ||
    jsIncludes responseText "cf-browser-verification" ||
    jsIncludes responseText "window._cf_chl_opt" ||
    jsIncludes responseText "challenge-platform" ||
    jsIncludes responseText "cf_clearance"
  else false

/-- The retry loop of `fetchWithRetry(url, options, config)` of
`networkUtils.js`.  `attempts i` is the outcome of the `i`-th fetch attempt;
the result is paired with the list of backoff sleeps (in ms, in order).
`remaining = maxRetries - attempt` drives the loop, so `remaining' = 0`
is the JavaScript condition `attempt == maxRetries - 1` (last attempt).
On a thrown outcome the loop records the error and, unless on its last
attempt, sleeps `2^attempt` seconds and retries; on a 403/503 response with
challenge markers it sleeps `2^(attempt+1)` seconds and retries, and on the
last attempt throws the challenge error (the source throws it inside the
`try`, so it lands in `lastError` and is re-thrown after the loop — same
net result); any other response, 2xx or not, is returned. -/
def fetchWithRetryAux (checkCloudflare : Bool) (attempts : Nat → Outcome)
    (attempt : Nat) : Nat → Option String → FetchResult × List Nat
  | 0, lastError => (.err (lastError.getD "All attempts failed"), [])
  | remaining' + 1, lastError =>
    match attempts attempt with
    | .exn msg =>
      if remaining' = 0 then (.err msg, [])
      else
        let rec_ := fetchWithRetryAux checkCloudflare attempts (attempt + 1) remaining' (some msg)
        (rec_.1, 2 ^ attempt * 1000 :: rec_.2)
    | .resp r =>
      if checkCloudflare && (r.status == 403 || r.status == 503) then
        if isCloudflareChallenge r r.body then
          if remaining' = 0 then (.err "Cloudflare challenge could not be bypassed", [])
          else
            let rec_ := fetchWithRetryAux checkCloudflare attempts (attempt + 1) remaining' lastError
            (rec_.1, 2 ^ (attempt + 1) * 1000 :: rec_.2)
        else (.ok r, [])
      else (.ok r, [])

/-- `fetchWithRetry` of `networkUtils.js` with config `{maxRetries,
checkCloudflare}` (source defaults: 3, true). -/
def fetchWithRetry (attempts : Nat → Outcome) (maxRetries : Nat) (checkCloudflare : Bool) :
    FetchResult × List Nat :=
  fetchWithRetryAux checkCloudflare attempts 0 maxRetries none

/-- `cloudflareBypassFetch(url, options)` of the Bato service
(`src/unnamed/part_002`), retry loop only, with the per-attempt fetch given by
the oracle `attempts`.  `maxRetries` is fixed at 3 in the source; it is kept
as the `remaining` counter here for the induction.  Differences from
`fetchWithRetry`: the challenge backoff is `2000 * (attempt + 1)` ms and is
slept even on the last attempt (the source sleeps before `continue`, with no
last-attempt guard); a challenge checks only four markers; a response that is
neither `ok` nor a 404 is converted to a thrown `HTTP error!` and retried
like a connection failure with `2^attempt` seconds of backoff. -/
def cloudflareBypassFetchAux (attempts : Nat → Outcome) (attempt : Nat) :
    Nat → Option String → FetchResult × List Nat
  | 0, lastError => (.err (lastError.getD "All 3 fetch attempts failed"), [])
  | remaining' + 1, lastError =>
    match attempts attempt with
    | .exn msg =>
      if remaining' = 0 then (.err msg, [])
      else
        let rec_ := cloudflareBypassFetchAux attempts (attempt + 1) remaining' (some msg)
        (rec_.1, 2 ^ attempt * 1000 :: rec_.2)
    | .resp r =>
      let serverHeader := jsToLower r.server
      if (r.status == 403 || r.status == 503) &&
          (jsIncludes serverHeader "cloudflare" || jsIncludes serverHeader "cloudflare-nginx") &&
          (jsIncludes r.body "cloudflare" ||
           jsIncludes r.body "cf-browser-verification" ||
           jsIncludes r.body "window._cf_chl_opt" ||
           jsIncludes r.body "challenge-platform") then
        let rec_ := cloudflareBypassFetchAux attempts (attempt + 1) remaining' lastError
        (rec_.1, 2000 * (attempt + 1) :: rec_.2)
      else if !respOk r && r.status ≠ 404 then
        let msg := "HTTP error! status: " ++ toString r.status
        if remaining' = 0 then (.err msg, [])
        else
          let rec_ := cloudflareBypassFetchAux attempts (attempt + 1) remaining' (some msg)
          (rec_.1, 2 ^ attempt * 1000 :: rec_.2)
      else (.ok r, [])

/-- `cloudflareBypassFetch` with its fixed `maxRetries = 3`. -/
def cloudflareBypassFetch (attempts : Nat → Outcome) : FetchResult × List Nat :=
  cloudflareBypassFetchAux attempts 0 3 none

/-! ## Rate limiter (`RateLimiter` of `src/services/networkUtils.js`)

`acquire()` prunes the timestamp queue to the current window, waits
(recursively re-checking) while the window is full, and finally records the
current time.  One *completed* `acquire` is modelled as an atomic step at a
time `now`; a step either records `now` (the final push) or merely prunes and
keeps waiting (the recursive-wait branch, which re-runs as a later step). -/

/-- The `RateLimiter` state: `permits` requests per `periodMs` window, and the
queue of recorded request timestamps. -/
structure RateLimiter where
  permits : Nat
  periodMs : Nat
  requestQueue : List Nat
deriving DecidableEq, Repr

/-- One atomic evaluation of `RateLimiter.acquire` at time `now`: prune the
queue with `now - timestamp < periodMs`, then either wait (full, non-empty
queue: after the pruning the wait time `periodMs - (now - oldest)` is always
positive, so the source always sleeps and re-checks) or push `now`.  With an
empty queue the source's `waitTime` is `NaN` (`queue[0]` is `undefined`), the
`waitTime > 0` guard fails, and the push happens regardless of `permits`. -/
def rlAcquireStep (rl : RateLimiter) (now : Nat) : Bool × RateLimiter :=
  let q := rl.requestQueue.filter (fun t => now - t < rl.periodMs)
  if q.length ≥ rl.permits ∧ q ≠ [] then
    (false, { rl with requestQueue := q })
  else
    (true, { rl with requestQueue := q ++ [now] })

/-- Run a sequence of `acquire` evaluations at the given (nondecreasing)
times; returns the timestamps that were recorded, in order, and the final
limiter state. -/
def rlRun (rl : RateLimiter) : List Nat → List Nat × RateLimiter
  | [] => ([], rl)
  | now :: rest =>
    let step := rlAcquireStep rl now
    let tail := rlRun step.2 rest
    ((if step.1 then [now] else []) ++ tail.1, tail.2)

/-- The recorded request timestamps of a run started from a fresh limiter. -/
def rlRecorded (permits periodMs : Nat) (times : List Nat) : List Nat :=
  (rlRun ⟨permits, periodMs, []⟩ times).1

/-! ## JavaScript `Map` on string keys

`SourceManager` and `MemoryCache` use `Map`.  A `Map` is modelled as an
insertion-ordered association list with unique keys: `set` replaces an
existing binding in place, otherwise appends; `delete` removes the binding;
`get` finds it. -/

/-- `Map.prototype.get`. -/
def jsMapGet {α : Type} (m : List (String × α)) (k : String) : Option α :=
  (m.find? (fun p => p.1 = k)).map Prod.snd

/-- `Map.prototype.has`. -/
def jsMapHas {α : Type} (m : List (String × α)) (k : String) : Bool :=
  m.any (fun p => p.1 = k)

/-- `Map.prototype.set`: replace in place if the key is bound, else append. -/
def jsMapSet {α : Type} (m : List (String × α)) (k : String) (v : α) : List (String × α) :=
  if jsMapHas m k then m.map (fun p => if p.1 = k then (k, v) else p) else m ++ [(k, v)]

/-- `Map.prototype.delete` (the new map; the source ignores or returns the
Boolean separately). -/
def jsMapDelete {α : Type} (m : List (String × α)) (k : String) : List (String × α) :=
  m.filter (fun p => p.1 ≠ k)

/-- Remove the first occurrence of `k` from a list of keys: the
`indexOf`/`splice(index, 1)` idiom used on `accessOrder`. -/
def removeFirst : List String → String → List String
  | [], _ => []
  | x :: xs, k => if x = k then xs else x :: removeFirst xs k

/-! ## Memory cache tier (`MemoryCache` of the cache manager,
`src/unnamed/part_002`) -/

/-- A memory-cache entry: `{value, expiresAt, cachedAt}`.  `expiresAt` is
`null` (here `none`) when no TTL was given. -/
structure MemEntry (α : Type) where
  value : α
  expiresAt : Option Nat
  cachedAt : Nat
deriving DecidableEq, Repr

/-- The `MemoryCache` state: the entry map, the capacity, and the LRU access
order (least recently accessed first). -/
structure MemoryCache (α : Type) where
  cache : List (String × MemEntry α)
  maxSize : Nat
  accessOrder : List String
deriving DecidableEq, Repr

/-- `ttl ? Date.now() + ttl : null` of `MemoryCache.set` / `saveToStorage`:
a `null` or `0` TTL is falsy and yields no expiry. -/
def expiresAtOf (now : Nat) (ttl : Option Nat) : Option Nat :=
  match ttl with
  | some t => if t ≠ 0 then some (now + t) else none
  | none => none

/-- `entry.expiresAt && Date.now() > entry.expiresAt`: the truthiness test
makes a `null` (or zero) `expiresAt` never expire. -/
def entryExpired (expiresAt : Option Nat) (now : Nat) : Bool :=
  match expiresAt with
  | some e => e ≠ 0 && now > e
  | none => false

/-- `MemoryCache.get(key)` at time `now`.  An expired entry is deleted from
the map — but, as in the source, *not* from `accessOrder` — and `null` is
returned; a live hit moves the key to the back of `accessOrder`. -/
def memGet {α : Type} (mc : MemoryCache α) (now : Nat) (key : String) :
    Option α × MemoryCache α :=
  match jsMapGet mc.cache key with
  | none => (none, mc)
  | some entry =>
    if entryExpired entry.expiresAt now then
      (none, { mc with cache := jsMapDelete mc.cache key })
    else
      (some entry.value, { mc with accessOrder := removeFirst mc.accessOrder key ++ [key] })

/-- `MemoryCache.set(key, value, ttl)` at time `now`: evict the front of
`accessOrder` when the map is at capacity and the key is new (with an empty
`accessOrder` the source's `shift()` yields `undefined` and the delete is a
no-op), then store the entry and move the key to the back of `accessOrder`. -/
def memSet {α : Type} (mc : MemoryCache α) (now : Nat) (key : String) (value : α)
    (ttl : Option Nat) : MemoryCache α :=
  let mc1 :=
    if mc.cache.length ≥ mc.maxSize ∧ ¬jsMapHas mc.cache key then
      match mc.accessOrder with
      | [] => mc
      | oldest :: rest => { mc with cache := jsMapDelete mc.cache oldest, accessOrder := rest }
    else mc
  let entry : MemEntry α := ⟨value, expiresAtOf now ttl, now⟩
  { mc1 with
    cache := jsMapSet mc1.cache key entry,
    accessOrder := removeFirst mc1.accessOrder key ++ [key] }

/-- `MemoryCache.delete(key)`. -/
def memDelete {α : Type} (mc : MemoryCache α) (key : String) : MemoryCache α :=
  { mc with accessOrder := removeFirst mc.accessOrder key, cache := jsMapDelete mc.cache key }

/-- One cache operation, for reasoning about operation sequences. -/
inductive CacheOp (α : Type) where
  | get (now : Nat) (key : String)
  | set (now : Nat) (key : String) (value : α) (ttl : Option Nat)
  | del (key : String)

/-- Run a sequence of memory-cache operations. -/
def memRun {α : Type} (mc : MemoryCache α) : List (CacheOp α) → MemoryCache α
  | [] => mc
  | .get now key :: rest => memRun (memGet mc now key).2 rest
  | .set now key v ttl :: rest => memRun (memSet mc now key v ttl) rest
  | .del key :: rest => memRun (memDelete mc key) rest

/-! ## Persistent cache tier (`getFromStorage` / `saveToStorage`)

`AsyncStorage` holds JSON-serialised `{value, expiresAt, cachedAt}` records;
the store is modelled at the parsed level as a string-keyed map. -/

/-- `saveToStorage(key, value, ttl)` at time `now`. -/
def saveToStorage {α : Type} (st : List (String × MemEntry α)) (now : Nat) (key : String)
    (value : α) (ttl : Option Nat) : List (String × MemEntry α) :=
  jsMapSet st key ⟨value, expiresAtOf now ttl, now⟩

/-- `getFromStorage(key)` at time `now`: absent or expired (the same truthy
expiry test as the memory tier) yields `null`, and an expired record is
removed (`AsyncStorage.removeItem`). -/
def getFromStorage {α : Type} (st : List (String × MemEntry α)) (now : Nat) (key : String) :
    Option α × List (String × MemEntry α) :=
  match jsMapGet st key with
  | none => (none, st)
  | some data =>
    if entryExpired data.expiresAt now then (none, jsMapDelete st key)
    else (some data.value, st)

/-! ## Source registry (`src/services/sourceManager.js`) -/

/-- A registered source (the fields of the built-in source objects and the
stub objects; the `service` module reference is not data and is omitted). -/
structure Source where
  id : String
  name : String
  lang : String
  baseUrl : String
  sourceType : String
  versionId : Nat
  isNsfw : Bool
  isConfigurable : Bool
  isStub : Bool
deriving DecidableEq, Repr

/-- The `SourceManager` maps: `sources` and `stubSources`. -/
structure SourceManager where
  sources : List (String × Source)
  stubSources : List (String × Source)
deriving DecidableEq, Repr

/-- `SourceManager.registerSource(source)`: enrich with
`isConfigurable: false, isStub: false` and `set` under its id (ids of the
built-ins are always present, so the generated-id fallback is not taken). -/
def registerSource (sm : SourceManager) (source : Source) : SourceManager :=
  let enrichedSource := { source with isConfigurable := false, isStub := false }
  { sm with sources := jsMapSet sm.sources enrichedSource.id enrichedSource }

/-- `SourceManager.getSource(sourceId)`: a pure lookup (`get(...) || null`). -/
def getSource (sm : SourceManager) (sourceId : String) : Option Source :=
  jsMapGet sm.sources sourceId

/-- `SourceManager.createStubSource(sourceId)`: synthesizes a stub *and
inserts it into `stubSources`*. -/
def createStubSource (sm : SourceManager) (sourceId : String) : Source × SourceManager :=
  let stub : Source :=
    { id := sourceId, name := "Source " ++ sourceId, lang := "unknown", baseUrl := "",
      sourceType := "stub", versionId := 0, isNsfw := false, isConfigurable := false,
      isStub := true }
  (stub, { sm with stubSources := jsMapSet sm.stubSources sourceId stub })

/-- `SourceManager.getSourceOrStub(sourceId)`:
`sources.get(id) || stubSources.get(id) || createStubSource(id)`. -/
def getSourceOrStub (sm : SourceManager) (sourceId : String) : Source × SourceManager :=
  match jsMapGet sm.sources sourceId with
  | some s => (s, sm)
  | none =>
    match jsMapGet sm.stubSources sourceId with
    | some s => (s, sm)
    | none => createStubSource sm sourceId

/-! ## Bato domain failover (`src/unnamed/part_002`) -/

/-- `BATO_DOMAINS`: the fixed mirror-domain candidate list.  It is a
module-level `const` that is never reassigned or reordered. -/
def BATO_DOMAINS : List String := ["https://bato.to", "https://battwo.com", "https://mto.to"]

/-- Whether a domain's fetch (via `cloudflareBypassFetch`) yields an `ok`
response: a thrown error or a non-`ok` response both move to the next
domain. -/
def domainOk (fetch : String → Outcome) (domain : String) : Bool :=
  match fetch domain with
  | .exn _ => false
  | .resp r => respOk r

/-- The loop of `tryBatoDomains(path, options)` over a candidate list:
fetch each domain in order; a thrown fetch is caught and the next domain
tried; an `ok` response wins and is returned with its domain. -/
def tryBatoDomainsGo (fetch : String → Outcome) : List String → Option (Resp × String)
  | [] => none
  | domain :: rest =>
    match fetch domain with
    | .exn _ => tryBatoDomainsGo fetch rest
    | .resp r => if respOk r then some (r, domain) else tryBatoDomainsGo fetch rest

/-- `tryBatoDomains`: iterate `BATO_DOMAINS`; on success assign
`CURRENT_BATO_URL = domain`; if every domain fails, throw (`none`) and leave
`CURRENT_BATO_URL` unchanged. -/
def tryBatoDomains (fetch : String → Outcome) (currentBatoUrl : String) :
    Option Resp × String :=
  match tryBatoDomainsGo fetch BATO_DOMAINS with
  | some (r, domain) => (some r, domain)
  | none => (none, currentBatoUrl)

/-- The domains `tryBatoDomains` attempts, in order: every domain up to and
including the first `ok` one. -/
def attemptedDomains (fetch : String → Outcome) : List String → List String
  | [] => []
  | domain :: rest =>
    match fetch domain with
    | .exn _ => domain :: attemptedDomains fetch rest
    | .resp r => if respOk r then [domain] else domain :: attemptedDomains fetch rest

/-! ## Xbato backend (`xbatoService`, in `src/services/sourceManager.js`'s
file group) -/

/-- A record returned by `searchXbatoManga` (the mapped item shape). -/
structure XbatoRecord where
  id : Option String
  title : Option String
  description : String
  coverUrl : Option String
  author : Option String
  status : String
  itemType : String
deriving DecidableEq, Repr

/-- A JSON item of the Xbato search response (the fields the mapping reads). -/
structure XbatoItem where
  url : Option String
  link : Option String
  title : Option String
  name : Option String
  description : Option String
  synopsis : Option String
  image : Option String
  thumbnail : Option String
  cover : Option String
  author : Option String
  status : Option String
  itemType : Option String
deriving DecidableEq, Repr

/-- The parsed body `fetchXbatoApi` hands back: `null`, a non-array JSON
value, or an array of items; or a thrown error (network failure after
retries, non-ok status, or unparseable JSON). -/
inductive XbatoApiData where
  | nullData
  | nonArray
  | arr (items : List XbatoItem)
deriving Repr

/-- JavaScript `a || b` on optional strings: the first defined, non-empty
one. -/
def jsOrStr (a b : Option String) : Option String :=
  match a with
  | some s => if s ≠ "" then some s else (match b with
    | some s2 => if s2 ≠ "" then some s2 else none
    | none => none)
  | none => match b with
    | some s2 => if s2 ≠ "" then some s2 else none
    | none => none

/-- `a || "fallback"` on an optional string. -/
def jsOrStrD (a : Option String) (d : String) : String :=
  match a with
  | some s => if s ≠ "" then s else d
  | none => d

/-- The item mapping of `searchXbatoManga`. -/
def mapXbatoItem (item : XbatoItem) : XbatoRecord :=
  { id := jsOrStr item.url item.link,
    title := jsOrStr item.title item.name,
    description := jsOrStrD (jsOrStr item.description item.synopsis) "",
    coverUrl := jsOrStr item.image (jsOrStr item.thumbnail item.cover),
    author := item.author,
    status := jsOrStrD item.status "unknown",
    itemType := jsOrStrD item.itemType "manga" }

/-- `XBATO_API_BASE` of `xbatoService`. -/
def XBATO_API_BASE : String := "https://xbato-api.hanifu.id"

/-- `searchXbatoManga(query)`: a query whose trimmed length is below 3 is
rejected before any request is built; otherwise one API request is issued and
its data mapped (a thrown fetch or a non-array body degrade to `[]` through
the `catch`).  `fetchApi` is the oracle for `fetchXbatoApi`; the second
component of the result is the list of requested URLs.  (`encodeURIComponent`
is the identity on the alphanumeric queries exercised here and is not
modelled further.) -/
def searchXbatoManga (fetchApi : String → Except String XbatoApiData) (query : String) :
    List XbatoRecord × List String :=
  if (jsTrim query).length < 3 then ([], [])
  else
    let url := XBATO_API_BASE ++ "/search?query=" ++ query
    match fetchApi url with
    | .error _ => ([], [url])
    | .ok .nullData => ([], [url])
    | .ok .nonArray => ([], [url])
    | .ok (.arr items) => (items.map mapXbatoItem, [url])

/-! ## Regular-expression engine

The extractor's regexes are built from a small set of constructs: literals,
`(?:a|b)` alternations of literals, character classes with `*`, `+` or lazy
`*?` quantifiers, an optional trailing literal (`s?`), and one lookahead.
They are embedded as explicit item lists; a backtracking matcher reproduces
JavaScript semantics (leftmost match, greedy longest-first / lazy
shortest-first, alternatives left to right, `/i` case-insensitivity on
literals).  Every pattern has at most one capture group, always a contiguous
run of items, marked by the Boolean on each item. -/

/-- A character class as a Boolean predicate. -/
abbrev CharCls := Char → Bool

/-- One regex item. -/
inductive RItem where
  | lit (s : String)
  | alts (ss : List String)
  | one (c : CharCls)
  | star (c : CharCls)
  | plus (c : CharCls)
  | lazyStar (c : CharCls)
  | optLit (s : String)
  | look (p : List Char → Bool)

/-- A compiled pattern: items each flagged as inside the capture group. -/
abbrev RPattern := List (RItem × Bool)

/-- `[^cs]`. -/
def notIn (cs : List Char) : CharCls := fun ch => !cs.contains ch

/-- `["']`. -/
def quoteC : CharCls := fun ch => ch == '"' || ch == '\''

/-- `[^"']`. -/
def notQuote : CharCls := notIn ['"', '\'']

/-- `\d`. -/
def digitC : CharCls := fun ch => ch.isDigit

/-- `[\s\S]` — any character. -/
def anyC : CharCls := fun _ => true

/-- Case-insensitively strip a literal prefix, returning the consumed
original characters and the rest. -/
def stripPrefixCI : List Char → List Char → Option (List Char × List Char)
  | [], s => some ([], s)
  | _ :: _, [] => none
  | p :: ps, c :: cs =>
    if ciCharEq p c then (stripPrefixCI ps cs).map (fun r => (c :: r.1, r.2)) else none

/-- The length of the maximal class-satisfying prefix. -/
def clsRun (c : CharCls) (s : List Char) : Nat := (s.takeWhile c).length

/-- Split candidates for a greedy quantifier, longest first. -/
def greedySplits (c : CharCls) (s : List Char) : List (List Char × List Char) :=
  ((List.range (clsRun c s + 1)).reverse).map (fun n => (s.take n, s.drop n))

/-- Split candidates for a lazy quantifier, shortest first. -/
def lazySplits (c : CharCls) (s : List Char) : List (List Char × List Char) :=
  (List.range (clsRun c s + 1)).map (fun n => (s.take n, s.drop n))

/-- Match a pattern at the start of `s`, with backtracking; returns
`(full match, capture, rest)`.  The `fuel` argument only makes the recursion
structural: one unit is consumed per item, so `items.length + 1` always
suffices (see `matchPattern`). -/
def matchGo : Nat → RPattern → List Char → Option (List Char × List Char × List Char)
  | 0, _, _ => none
  | _ + 1, [], s => some ([], [], s)
  | fuel + 1, (it, cap) :: its, s =>
    let cont := fun (tk r : List Char) =>
      (matchGo fuel its r).map (fun res =>
        (tk ++ res.1, (if cap then tk else []) ++ res.2.1, res.2.2))
    match it with
    | .lit l =>
      match stripPrefixCI l.data s with
      | some (tk, r) => cont tk r
      | none => none
    | .alts ss =>
      ss.findSome? (fun l =>
        match stripPrefixCI l.data s with
        | some (tk, r) => cont tk r
        | none => none)
    | .one ccls =>
      match s with
      | ch :: r => if ccls ch then cont [ch] r else none
      | [] => none
    | .star ccls => (greedySplits ccls s).findSome? (fun p => cont p.1 p.2)
    | .plus ccls => ((greedySplits ccls s).dropLast).findSome? (fun p => cont p.1 p.2)
    | .lazyStar ccls => (lazySplits ccls s).findSome? (fun p => cont p.1 p.2)
    | .optLit l =>
      match stripPrefixCI l.data s with
      | some (tk, r) =>
        match cont tk r with
        | some res => some res
        | none => cont [] s
      | none => cont [] s
    | .look p => if p s then cont [] s else none

/-- Match a pattern at the start of `s`. -/
def matchPattern (items : RPattern) (s : List Char) :
    Option (List Char × List Char × List Char) :=
  matchGo (items.length + 1) items s

/-- `html.match(regex)` without `/g`: try each start position left to right;
produce the capture group of the first (leftmost) match. -/
def searchCapture (items : RPattern) : List Char → Option (List Char)
  | [] => (matchPattern items []).map (fun r => r.2.1)
  | c :: rest =>
    match matchPattern items (c :: rest) with
    | some r => some r.2.1
    | none => searchCapture items rest

/-- The `extractAll(html, pattern)` / `regex.exec` loop with `/g`: all
non-overlapping leftmost matches, as `(full match, capture)` pairs, resuming
after each match.  Every embedded pattern starts with a non-empty literal, so
matches are never empty; the empty-match guard (which in JavaScript would
loop forever) is unreachable and merely makes the recursion total.  `fuel`
bounds the number of scanned positions; `s.length + 1` always suffices. -/
def globalMatchesGo : Nat → RPattern → List Char → List (List Char × List Char)
  | 0, _, _ => []
  | _ + 1, _, [] => []
  | fuel + 1, items, c :: rest =>
    match matchPattern items (c :: rest) with
    | some (full, capture, after) =>
      if full.isEmpty then []
      else (full, capture) :: globalMatchesGo fuel items after
    | none => globalMatchesGo fuel items rest

/-- All matches of a pattern in `s` (the `extractAll` helper of the Bato
service, for a fixed compiled pattern). -/
def globalMatches (items : RPattern) (s : List Char) : List (List Char × List Char) :=
  globalMatchesGo (s.length + 1) items s

/-! ## Bato listing extraction (`parseMangaCard` / `searchBatoManga` of
`src/unnamed/part_002`) -/

/-- `/href=["']\/series\/([^"'\/]+)[^"']*["']/i`. -/
def idPat1 : RPattern :=
  [(.lit "href=", false), (.one quoteC, false), (.lit "/series/", false),
   (.plus (notIn ['"', '\'', '/']), true), (.star notQuote, false), (.one quoteC, false)]

/-- `/href=["']([^"']*\/title\/[^"']+)["']/i`. -/
def idPat2 : RPattern :=
  [(.lit "href=", false), (.one quoteC, false),
   (.star notQuote, true), (.lit "/title/", true), (.plus notQuote, true),
   (.one quoteC, false)]

/-- `/href=["']([^"']*\/series\/[^"']+)["']/i`. -/
def idPat3 : RPattern :=
  [(.lit "href=", false), (.one quoteC, false),
   (.star notQuote, true), (.lit "/series/", true), (.plus notQuote, true),
   (.one quoteC, false)]

/-- `/class=["'][^"']*(?:title|name)[^"']*["'][^>]*>([^<]+)</i`. -/
def titlePat1 : RPattern :=
  [(.lit "class=", false), (.one quoteC, false), (.star notQuote, false),
   (.alts ["title", "name"], false), (.star notQuote, false), (.one quoteC, false),
   (.star (notIn ['>']), false), (.lit ">", false), (.plus (notIn ['<']), true),
   (.lit "<", false)]

/-- `/alt=["']([^"']+)["']/i`. -/
def titlePat2 : RPattern :=
  [(.lit "alt=", false), (.one quoteC, false), (.plus notQuote, true), (.one quoteC, false)]

/-- `/title=["']([^"']+)["']/i`. -/
def titlePat3 : RPattern :=
  [(.lit "title=", false), (.one quoteC, false), (.plus notQuote, true), (.one quoteC, false)]

/-- `/src=["']([^"']*(?:cover|thumb|image)[^"']*)["']/i`. -/
def coverPat1 : RPattern :=
  [(.lit "src=", false), (.one quoteC, false),
   (.star notQuote, true), (.alts ["cover", "thumb", "image"], true), (.star notQuote, true),
   (.one quoteC, false)]

/-- `/<img[^>]*data-src=["']([^"']+)["']/i`. -/
def coverPat2 : RPattern :=
  [(.lit "<img", false), (.star (notIn ['>']), false), (.lit "data-src=", false),
   (.one quoteC, false), (.plus notQuote, true), (.one quoteC, false)]

/-- `/<img[^>]*src=["']([^"']+)["']/i`. -/
def coverPat3 : RPattern :=
  [(.lit "<img", false), (.star (notIn ['>']), false), (.lit "src=", false),
   (.one quoteC, false), (.plus notQuote, true), (.one quoteC, false)]

/-- `/(\d+)\s*(?:ch|chapters?)/i`; the alternative order mirrors the
JavaScript backtracking order (`ch` first, then `chapters?` greedy on the
optional `s`). -/
def chaptersPat : RPattern :=
  [(.plus digitC, true), (.star jsIsSpace, false),
   (.alts ["ch", "chapters", "chapter"], false)]

/-- `url.split('/').filter(Boolean).pop()` — the last non-empty path
component, if any. -/
def lastPathComponent (s : String) : Option String :=
  ((s.splitOn "/").filter (fun p => p ≠ "")).getLast?

/-- The record `parseMangaCard` builds. -/
structure MangaCard where
  id : Option String
  url : Option String
  title : String
  coverUrl : Option String
  chapters : Option Nat
deriving DecidableEq, Repr

/-- `parseMangaCard(html)`.  `currentBatoUrl` models the module global
`CURRENT_BATO_URL` read for URL absolutization.  Nothing in the body can
throw, so the source's `catch → null` branch is dead in the model. -/
def parseMangaCard (currentBatoUrl : String) (html : String) : MangaCard :=
  let urlMatch :=
    match searchCapture idPat1 html.data with
    | some m => some m
    | none =>
      match searchCapture idPat2 html.data with
      | some m => some m
      | none => searchCapture idPat3 html.data
  let idUrl : Option String × Option String :=
    match urlMatch with
    | none => (none, none)
    | some capture =>
      let m := String.mk capture
      if jsStartsWith m "/" then (lastPathComponent m, some m)
      else if jsIncludes m "/series/" || jsIncludes m "/title/" then
        (lastPathComponent m, some m)
      else (some m, some ("/series/" ++ m))
  let titleMatch :=
    match searchCapture titlePat1 html.data with
    | some m => some m
    | none =>
      match searchCapture titlePat2 html.data with
      | some m => some m
      | none => searchCapture titlePat3 html.data
  let title :=
    match titleMatch with
    | some capture => jsTrim (String.mk capture)
    | none => "Unknown Title"
  let coverMatch :=
    match searchCapture coverPat1 html.data with
    | some m => some m
    | none =>
      match searchCapture coverPat2 html.data with
      | some m => some m
      | none => searchCapture coverPat3 html.data
  let coverUrl :=
    match coverMatch.map String.mk with
    | none => none
    | some cu =>
      if cu ≠ "" && !jsStartsWith cu "http" then
        some (if jsStartsWith cu "/" then currentBatoUrl ++ cu else currentBatoUrl ++ "/" ++ cu)
      else some cu
  let chapters := (searchCapture chaptersPat html.data).bind (fun c => (String.mk c).toNat?)
  { id := idUrl.1,
    url := idUrl.2.map (fun u => if jsStartsWith u "http" then u else currentBatoUrl ++ u),
    title := title,
    coverUrl := coverUrl,
    chapters := chapters }

/-- The `<div[^>]*class=["'][^"']*(?:item-|manga-|series-)` prefix shared by
the first card pattern and its lookahead. -/
def cardDivPrefix : RPattern :=
  [(.lit "<div", false), (.star (notIn ['>']), false), (.lit "class=", false),
   (.one quoteC, false), (.star notQuote, false), (.alts ["item-", "manga-", "series-"], false)]

/-- The `(?=<div[^>]*class=["'][^"']*(?:item-|manga-|series-)|$)` lookahead:
the prefix matches here, or this is the end of the input. -/
def cardDivLookahead (s : List Char) : Bool :=
  (matchPattern cardDivPrefix s).isSome || s.isEmpty

/-- Card pattern 1 of `searchBatoManga`:
`/<div[^>]*class=["'][^"']*(?:item-|manga-|series-)[^"']*["'][^>]*>[\s\S]*?(?=<div[^>]*class=["'][^"']*(?:item-|manga-|series-)|$)/gi`. -/
def cardPat1 : RPattern :=
  cardDivPrefix ++
  [(.star notQuote, false), (.one quoteC, false), (.star (notIn ['>']), false),
   (.lit ">", false), (.lazyStar anyC, false), (.look cardDivLookahead, false)]

/-- Card pattern 2:
`/<a[^>]*class=["'][^"']*(?:item|card)[^"']*["'][^>]*>[\s\S]*?<\/a>/gi`. -/
def cardPat2 : RPattern :=
  [(.lit "<a", false), (.star (notIn ['>']), false), (.lit "class=", false),
   (.one quoteC, false), (.star notQuote, false), (.alts ["item", "card"], false),
   (.star notQuote, false), (.one quoteC, false), (.star (notIn ['>']), false),
   (.lit ">", false), (.lazyStar anyC, false), (.lit "</a>", false)]

/-- Card pattern 3: `/<article[^>]*>[\s\S]*?<\/article>/gi`. -/
def cardPat3 : RPattern :=
  [(.lit "<article", false), (.star (notIn ['>']), false), (.lit ">", false),
   (.lazyStar anyC, false), (.lit "</article>", false)]

/-- A search-result record of `searchBatoManga` (`{id, title, coverUrl,
description: '', author: null, status: 'unknown'}`). -/
structure BatoSearchResult where
  id : String
  title : String
  coverUrl : Option String
  description : String
  author : Option String
  status : String
deriving DecidableEq, Repr

/-- JavaScript truthiness of the mined `manga.id` (`undefined` or the empty
string are falsy). -/
def idTruthy : Option String → Bool
  | some s => s ≠ ""
  | none => false

/-- The result loop of `searchBatoManga`: parse each candidate card, keep it
only when `manga.id` is truthy, and `slice(0, 20)` the result. -/
def processCards (currentBatoUrl : String) (cards : List String) : List BatoSearchResult :=
  (cards.filterMap (fun card =>
    let manga := parseMangaCard currentBatoUrl card
    if idTruthy manga.id then
      some { id := manga.id.getD "", title := manga.title, coverUrl := manga.coverUrl,
             description := "", author := none, status := "unknown" }
    else none)).take 20

/-- The card-splitting loop of `searchBatoManga`: try the three card
patterns in order, keeping the first with at least one match. -/
def extractCards (html : String) : List String :=
  let c1 := globalMatches cardPat1 html.data
  if c1.length > 0 then c1.map (fun m => String.mk m.1)
  else
    let c2 := globalMatches cardPat2 html.data
    if c2.length > 0 then c2.map (fun m => String.mk m.1)
    else (globalMatches cardPat3 html.data).map (fun m => String.mk m.1)

/-- The extraction part of `searchBatoManga(query)`, from the fetched markup
(the fetch itself is `tryBatoDomains`, modelled separately). -/
def searchBatoFromHtml (currentBatoUrl : String) (html : String) : List BatoSearchResult :=
  processCards currentBatoUrl (extractCards html)

/-! ## JSON (`JSON.parse`, as used by `getBatoChapterPages`)

A model of the platform's `JSON.parse` sufficient for the values the chapter
page extractor feeds it: strings, integers, booleans, `null`, arrays and
objects.  Unsupported lexical forms (fractional/exponent numbers, `\u`
escapes) are treated as parse failures; `JSON.parse` throwing is `none`. -/

/-- A JSON value. -/
inductive JVal where
  | jstr (s : String)
  | jnum (n : Int)
  | jbool (b : Bool)
  | jnull
  | jarr (xs : List JVal)
  | jobj (fields : List (String × JVal))

/-- JSON insignificant whitespace. -/
def skipWsJ (s : List Char) : List Char :=
  s.dropWhile (fun c => c == ' ' || c == '\t' || c == '\n' || c == '\r')

/-- One JSON escape character (`\"`, `\\`, `\/`, `\n`, `\t`, `\r`; others map
to themselves). -/
def jsonEscChar (c : Char) : Char :=
  if c == 'n' then '\n' else if c == 't' then '\t' else if c == 'r' then '\r' else c

/-- Scan a JSON string body up to its closing quote. -/
def parseJStrGo (acc : List Char) : List Char → Option (String × List Char)
  | [] => none
  | '\\' :: e :: r => parseJStrGo (acc ++ [jsonEscChar e]) r
  | '"' :: r => some (String.mk acc, r)
  | c :: r => parseJStrGo (acc ++ [c]) r

/-- Parse a JSON integer (sign and digits; a following `.`/`e` makes the
surrounding parse fail, see module note). -/
def parseJNum (s : List Char) : Option (JVal × List Char) :=
  let signed := match s with
    | '-' :: r => (true, r)
    | _ => (false, s)
  let digits := signed.2.takeWhile Char.isDigit
  if digits.isEmpty then none
  else
    (String.mk digits).toNat?.map (fun n =>
      (JVal.jnum (if signed.1 then -(n : Int) else (n : Int)), signed.2.dropWhile Char.isDigit))

/-- The parser mode: a value, the elements of an open array, or the fields of
an open object. -/
inductive JMode where
  | val
  | arrElems (acc : List JVal)
  | objFields (acc : List (String × JVal))

/-- Recursive-descent JSON parser; `fuel` makes the recursion structural
(`2 * (input length + 1)` always suffices, one unit per mode switch with at
least one character consumed every two switches). -/
def parseJ : Nat → JMode → List Char → Option (JVal × List Char)
  | 0, _, _ => none
  | fuel + 1, .val, s =>
    match skipWsJ s with
    | '"' :: r => (parseJStrGo [] r).map (fun p => (JVal.jstr p.1, p.2))
    | '[' :: r =>
      (match skipWsJ r with
       | ']' :: r2 => some (JVal.jarr [], r2)
       | s2 => parseJ fuel (.arrElems []) s2)
    | '\x7b' :: r =>
      (match skipWsJ r with
       | '\x7d' :: r2 => some (JVal.jobj [], r2)
       | s2 => parseJ fuel (.objFields []) s2)
    | 't' :: 'r' :: 'u' :: 'e' :: r => some (.jbool true, r)
    | 'f' :: 'a' :: 'l' :: 's' :: 'e' :: r => some (.jbool false, r)
    | 'n' :: 'u' :: 'l' :: 'l' :: r => some (.jnull, r)
    | s2 => parseJNum s2
  | fuel + 1, .arrElems acc, s =>
    match parseJ fuel .val s with
    | none => none
    | some (v, rest) =>
      match skipWsJ rest with
      | ',' :: r2 => parseJ fuel (.arrElems (acc ++ [v])) r2
      | ']' :: r2 => some (.jarr (acc ++ [v]), r2)
      | _ => none
  | fuel + 1, .objFields acc, s =>
    match skipWsJ s with
    | '"' :: r =>
      (match parseJStrGo [] r with
       | none => none
       | some (k, r2) =>
         match skipWsJ r2 with
         | ':' :: r3 =>
           (match parseJ fuel .val r3 with
            | none => none
            | some (v, r4) =>
              match skipWsJ r4 with
              | ',' :: r5 => parseJ fuel (.objFields (acc ++ [(k, v)])) r5
              | '\x7d' :: r5 => some (.jobj (acc ++ [(k, v)]), r5)
              | _ => none)
         | _ => none)
    | _ => none

/-- `JSON.parse(s)`: parse one value and require only whitespace after it. -/
def jsonParse (s : String) : Option JVal :=
  match parseJ (2 * (s.length + 1)) .val s.data with
  | some (v, rest) => if (skipWsJ rest).isEmpty then some v else none
  | none => none

/-- One pass of `.replace(/,\s*X/g, 'X')` for a closing character `X` (`]` or
`}`), as in the clean-up of the captured image array.  `fuel` makes the
recursion structural; the input length suffices. -/
def replaceCommaWsGo (close : Char) : Nat → List Char → List Char
  | 0, s => s
  | _ + 1, [] => []
  | fuel + 1, c :: rest =>
    if c == ',' then
      match rest.dropWhile jsIsSpace with
      | c2 :: r2 =>
        if c2 == close then close :: replaceCommaWsGo close fuel r2
        else c :: replaceCommaWsGo close fuel rest
      | [] => c :: replaceCommaWsGo close fuel rest
    else c :: replaceCommaWsGo close fuel rest

/-- `.replace(/,\s*\]/g, ']')` or `.replace(/,\s*}/g, '}')`. -/
def replaceCommaWs (close : Char) (s : List Char) : List Char :=
  replaceCommaWsGo close s.length s

/-! ## Bato chapter-page extraction (`getBatoChapterPages` of
`src/unnamed/part_002`), from the fetched markup -/

/-- A page record `{url, page}`. -/
structure PageRec where
  url : String
  page : Nat
deriving DecidableEq, Repr

/-- `/const\s+images\s*=\s*(\[[\s\S]*?\]);/i`. -/
def jsPat1 : RPattern :=
  [(.lit "const", false), (.plus jsIsSpace, false), (.lit "images", false),
   (.star jsIsSpace, false), (.lit "=", false), (.star jsIsSpace, false),
   (.lit "[", true), (.lazyStar anyC, true), (.lit "]", true), (.lit ";", false)]

/-- `/var\s+images\s*=\s*(\[[\s\S]*?\]);/i`. -/
def jsPat2 : RPattern :=
  [(.lit "var", false), (.plus jsIsSpace, false), (.lit "images", false),
   (.star jsIsSpace, false), (.lit "=", false), (.star jsIsSpace, false),
   (.lit "[", true), (.lazyStar anyC, true), (.lit "]", true), (.lit ";", false)]

/-- `/images:\s*(\[[\s\S]*?\])/i`. -/
def jsPat3 : RPattern :=
  [(.lit "images:", false), (.star jsIsSpace, false),
   (.lit "[", true), (.lazyStar anyC, true), (.lit "]", true)]

/-- `/pageList\s*=\s*(\[[\s\S]*?\])/i`. -/
def jsPat4 : RPattern :=
  [(.lit "pageList", false), (.star jsIsSpace, false), (.lit "=", false),
   (.star jsIsSpace, false), (.lit "[", true), (.lazyStar anyC, true), (.lit "]", true)]

/-- `/"images":\s*(\[[\s\S]*?\])/i`. -/
def jsPat5 : RPattern :=
  [(.lit "\"images\":", false), (.star jsIsSpace, false),
   (.lit "[", true), (.lazyStar anyC, true), (.lit "]", true)]

/-- The `jsPatterns` list of Method 1. -/
def jsPatterns : List RPattern := [jsPat1, jsPat2, jsPat3, jsPat4, jsPat5]

/-- JavaScript truthiness of a JSON value. -/
def jvTruthy : JVal → Bool
  | .jstr s => s ≠ ""
  | .jnum n => n ≠ 0
  | .jbool b => b
  | .jnull => false
  | .jarr _ => true
  | .jobj _ => true

/-- Property access `item.k` on a JSON value (`undefined` on non-objects). -/
def jvField (v : JVal) (k : String) : Option JVal :=
  match v with
  | .jobj fields => jsMapGet fields k
  | _ => none

/-- `a || b` where `a` is a possibly-undefined JSON value. -/
def jsOrJ (a : Option JVal) (b : JVal) : JVal :=
  match a with
  | some v => if jvTruthy v then v else b
  | none => b

/-- `typeof item === 'string' ? item : (item.url || item.src || item)`,
followed by `url.startsWith(...)`: a non-string result throws a `TypeError`
(`.startsWith` is not a function), modelled as `Except.error`. -/
def pageUrlOfItem (item : JVal) : Except String String :=
  match item with
  | .jstr s => .ok s
  | _ =>
    match jsOrJ (jvField item "url") (jsOrJ (jvField item "src") item) with
    | .jstr s => .ok s
    | _ => .error "TypeError: url.startsWith is not a function"

/-- The `images.map((item, index) => ...)` of Method 1; a `TypeError` from
any item aborts the whole map (and is caught by the per-pattern `catch`). -/
def mapPagesJ (currentBatoUrl : String) : List JVal → Nat → Except String (List PageRec)
  | [], _ => .ok []
  | item :: rest, idx =>
    match pageUrlOfItem item with
    | .error e => .error e
    | .ok url =>
      let u := if jsStartsWith url "http" then url else currentBatoUrl ++ url
      (mapPagesJ currentBatoUrl rest (idx + 1)).map (fun l => ⟨u, idx + 1⟩ :: l)

/-- Method 1 of `getBatoChapterPages`: for each `jsPatterns` entry, take the
first match's capture, clean trailing commas, `JSON.parse` it, and map a
non-empty array to pages; a parse failure, a mapping `TypeError` (both land
in the per-pattern `catch`), a non-array, or an empty array move on to the
next pattern. -/
def tryJsPatterns (currentBatoUrl : String) (html : List Char) :
    List RPattern → Option (List PageRec)
  | [] => none
  | pat :: pats =>
    match searchCapture pat html with
    | none => tryJsPatterns currentBatoUrl html pats
    | some capture =>
      let cleaned := replaceCommaWs '\x7d' (replaceCommaWs ']' capture)
      match jsonParse (String.mk cleaned) with
      | some (.jarr items) =>
        if items.length > 0 then
          match mapPagesJ currentBatoUrl items 0 with
          | .ok pages => some pages
          | .error _ => tryJsPatterns currentBatoUrl html pats
        else tryJsPatterns currentBatoUrl html pats
      | some _ => tryJsPatterns currentBatoUrl html pats
      | none => tryJsPatterns currentBatoUrl html pats

/-- `/<img[^>]*class=["'][^"']*page[^"']*["'][^>]*src=["']([^"']+)["']/gi`. -/
def imgPat1 : RPattern :=
  [(.lit "<img", false), (.star (notIn ['>']), false), (.lit "class=", false),
   (.one quoteC, false), (.star notQuote, false), (.lit "page", false),
   (.star notQuote, false), (.one quoteC, false), (.star (notIn ['>']), false),
   (.lit "src=", false), (.one quoteC, false), (.plus notQuote, true), (.one quoteC, false)]

/-- `/<img[^>]*id=["'][^"']*image[^"']*["'][^>]*src=["']([^"']+)["']/gi`. -/
def imgPat2 : RPattern :=
  [(.lit "<img", false), (.star (notIn ['>']), false), (.lit "id=", false),
   (.one quoteC, false), (.star notQuote, false), (.lit "image", false),
   (.star notQuote, false), (.one quoteC, false), (.star (notIn ['>']), false),
   (.lit "src=", false), (.one quoteC, false), (.plus notQuote, true), (.one quoteC, false)]

/-- `/<img[^>]*data-src=["']([^"']+)["'][^>]*class=["'][^"']*page/gi`. -/
def imgPat3 : RPattern :=
  [(.lit "<img", false), (.star (notIn ['>']), false), (.lit "data-src=", false),
   (.one quoteC, false), (.plus notQuote, true), (.one quoteC, false),
   (.star (notIn ['>']), false), (.lit "class=", false), (.one quoteC, false),
   (.star notQuote, false), (.lit "page", false)]

/-- The `imgPatterns` of Method 2. -/
def imgPatterns : List RPattern := [imgPat1, imgPat2, imgPat3]

/-- Map a list of captured URLs to page records (Methods 2 and 3). -/
def pagesOfCaptures (currentBatoUrl : String) : List (List Char) → Nat → List PageRec
  | [], _ => []
  | c :: rest, idx =>
    let url := String.mk c
    ⟨if jsStartsWith url "http" then url else currentBatoUrl ++ url, idx + 1⟩ ::
      pagesOfCaptures currentBatoUrl rest (idx + 1)

/-- Method 2: the first `imgPatterns` entry with at least one global match
wins. -/
def tryImgPatterns (currentBatoUrl : String) (html : List Char) :
    List RPattern → Option (List PageRec)
  | [] => none
  | pat :: pats =>
    let ms := globalMatches pat html
    if ms.length > 0 then some (pagesOfCaptures currentBatoUrl (ms.map (fun m => m.2)) 0)
    else tryImgPatterns currentBatoUrl html pats

/-- `/<img[^>]*src=["']([^"']+)["']/gi` of Method 3. -/
def imgAllPat : RPattern :=
  [(.lit "<img", false), (.star (notIn ['>']), false), (.lit "src=", false),
   (.one quoteC, false), (.plus notQuote, true), (.one quoteC, false)]

/-- `/\d+\.(jpg|jpeg|png|webp)/i` (alternative order as in the source). -/
def numExtPat : RPattern :=
  [(.plus digitC, false), (.lit ".", false), (.alts ["jpg", "jpeg", "png", "webp"], false)]

/-- The Method 3 filter on an image URL: contains `/pages/` or `/images/`,
or matches a numbered image-file name. -/
def looksLikePageUrl (url : String) : Bool :=
  jsIncludes url "/pages/" || jsIncludes url "/images/" ||
    (searchCapture numExtPat url.data).isSome

/-- The extraction part of `getBatoChapterPages(chapterId)` from the fetched
markup: Method 1 (JavaScript image arrays), then Method 2 (page-classed `img`
tags), then Method 3 (all `img` tags filtered to page-like URLs), else `[]`.
Every failure path inside is contained (the per-pattern `catch` of Method 1
and the outer `catch` returning `[]`), so the model is a total function into
a page list. -/
def getBatoChapterPagesFromHtml (currentBatoUrl : String) (html : String) : List PageRec :=
  match tryJsPatterns currentBatoUrl html.data jsPatterns with
  | some pages => pages
  | none =>
    match tryImgPatterns currentBatoUrl html.data imgPatterns with
    | some pages => pages
    | none =>
      let allImg := globalMatches imgAllPat html.data
      let pageImages := allImg.filter (fun m => looksLikePageUrl (String.mk m.2))
      if pageImages.length > 0 then
        pagesOfCaptures currentBatoUrl (pageImages.map (fun m => m.2)) 0
      else []

/-! ## Shared lemmas -/

/-- The length of a `filterMap` counts the inputs the function keeps. -/
theorem length_filterMap_eq_countP {α β : Type} (f : α → Option β) (l : List α) :
    (l.filterMap f).length = l.countP (fun a => (f a).isSome) := by
  induction l with
  | nil => rfl
  | cons a t ih =>
    cases h : f a <;> simp [List.filterMap_cons, h, ih, List.countP_cons]

/-- The in-place-replacement branch of `Map.set` rebinds the key. -/
theorem jsMapGet_map_set_of_has {α : Type} (k : String) (v : α) :
    ∀ m : List (String × α), jsMapHas m k = true →
      jsMapGet (m.map (fun p => if p.1 = k then (k, v) else p)) k = some v
  | [], h => by simp [jsMapHas] at h
  | p :: t, h => by
    by_cases hp : p.1 = k
    · simp [jsMapGet, hp]
    · have ht : jsMapHas t k = true := by simpa [jsMapHas, hp] using h
      have ih := jsMapGet_map_set_of_has k v t ht
      simpa [jsMapGet, hp, List.find?_cons_of_neg] using ih

/-- The append branch of `Map.set` binds the key. -/
theorem jsMapGet_append_of_not_has {α : Type} (k : String) (v : α) :
    ∀ m : List (String × α), jsMapHas m k = false →
      jsMapGet (m ++ [(k, v)]) k = some v
  | [], _ => by simp [jsMapGet]
  | p :: t, h => by
    have hp : ¬p.1 = k := by
      intro hpk
      simp [jsMapHas, hpk] at h
    have ht : jsMapHas t k = false := by simpa [jsMapHas, hp] using h
    have ih := jsMapGet_append_of_not_has k v t ht
    simpa [jsMapGet, hp, List.find?_cons_of_neg] using ih

/-- `Map.get` after `Map.set` of the same key. -/
theorem jsMapGet_set_self {α : Type} (m : List (String × α)) (k : String) (v : α) :
    jsMapGet (jsMapSet m k v) k = some v := by
  rw [jsMapSet]
  split
  case isTrue h => exact jsMapGet_map_set_of_has k v m h
  case isFalse h => exact jsMapGet_append_of_not_has k v m (by simpa using h)

/-- `Map.get` after `Map.delete` of the same key. -/
theorem jsMapGet_delete_self {α : Type} (m : List (String × α)) (k : String) :
    jsMapGet (jsMapDelete m k) k = none := by
  induction m with
  | nil => rfl
  | cons p t ih =>
    by_cases hp : p.1 = k
    · simp only [jsMapDelete, List.filter_cons, hp] at ih ⊢
      simp only [ne_eq, not_true_eq_false, decide_False, Bool.false_eq_true, if_false] at ih ⊢
      exact ih
    · simp only [jsMapGet, jsMapDelete, List.filter_cons, hp] at ih ⊢
      simp only [ne_eq, hp, not_false_eq_true, decide_True, if_true] at ih ⊢
      rw [List.find?_cons_of_neg _ (by simpa using hp)]
      exact ih

/-- The key list after a `Map.set`: unchanged if the key was bound, else
extended by the key. -/
theorem jsMapSet_map_fst {α : Type} (m : List (String × α)) (k : String) (v : α) :
    (jsMapSet m k v).map Prod.fst =
      if jsMapHas m k then m.map Prod.fst else m.map Prod.fst ++ [k] := by
  by_cases h : jsMapHas m k
  · simp only [jsMapSet, h, if_true]
    rw [List.map_map]
    refine List.map_congr_left (fun p _ => ?_)
    by_cases hp : p.1 = k <;> simp [hp]
  · simp [jsMapSet, h]

/-- `Map.set` preserves distinctness of keys. -/
theorem jsMapSet_nodup_keys {α : Type} (m : List (String × α)) (k : String) (v : α)
    (h : (m.map Prod.fst).Nodup) : ((jsMapSet m k v).map Prod.fst).Nodup := by
  rw [jsMapSet_map_fst]
  by_cases hk : jsMapHas m k
  · simpa [hk] using h
  · have hnotin : k ∉ m.map Prod.fst := by
      intro hmem
      rcases List.mem_map.mp hmem with ⟨p, hp, hpk⟩
      exact hk (List.any_eq_true.mpr ⟨p, hp, by simp [hpk]⟩)
    simp only [hk, if_false]
    exact List.Nodup.append h (List.nodup_singleton k) (by simpa using hnotin)

/-! ## Claims -/

/-- **C10**: for every query whose trimmed length is less than 3 characters,
`searchXbatoManga` returns the empty result list immediately and issues no
network request at all. -/
theorem searchXbatoManga_short_query_no_request
    (fetchApi : String → Except String XbatoApiData) (query : String)
    (h : (jsTrim query).length < 3) :
    searchXbatoManga fetchApi query = ([], []) := by
  simp [searchXbatoManga, h]

/-- Witness for **C10** at the two-character query `"ab"` against an oracle
that would fail any request. -/
theorem searchXbatoManga_short_query_no_request_witness :
    (jsTrim "ab").length < 3 ∧
      searchXbatoManga (fun _ => .error "network down") "ab" = ([], []) :=
  ⟨by decide, searchXbatoManga_short_query_no_request (fun _ => .error "network down") "ab"
    (by decide)⟩

/-- **C9, counterexample**: `getSourceOrStub` on an unknown id is *not* a
pure lookup — it inserts a synthesized stub into the `stubSources` map
(`createStubSource` calls `this.stubSources.set(...)`). -/
theorem getSourceOrStub_mutates_counterexample :
    (getSourceOrStub ⟨[], []⟩ "missing_src").2 ≠ (⟨[], []⟩ : SourceManager) := by
  decide

/-- **C9, amended**: `getSource` is a pure lookup; `getSourceOrStub` never
touches the `sources` map and leaves the whole registry unchanged whenever
the id is known (in either map), inserting a stub into `stubSources` only
for unknown ids; and `registerSource` keeps ids unique — each registered id
maps to exactly one source. -/
theorem registry_lookup_frame :
    (∀ (sm : SourceManager) (sourceId : String),
        (getSourceOrStub sm sourceId).2.sources = sm.sources) ∧
    (∀ (sm : SourceManager) (sourceId : String),
        (jsMapGet sm.sources sourceId).isSome ∨ (jsMapGet sm.stubSources sourceId).isSome →
        (getSourceOrStub sm sourceId).2 = sm) ∧
    (∀ (sm : SourceManager) (s : Source),
        (sm.sources.map Prod.fst).Nodup →
        (((registerSource sm s).sources.map Prod.fst).Nodup ∧
          jsMapGet (registerSource sm s).sources s.id =
            some { s with isConfigurable := false, isStub := false })) := by
  refine ⟨fun sm sourceId => ?_, fun sm sourceId h => ?_, fun sm s h => ?_⟩
  · unfold getSourceOrStub createStubSource
    cases jsMapGet sm.sources sourceId <;> cases jsMapGet sm.stubSources sourceId <;> rfl
  · unfold getSourceOrStub createStubSource
    rcases h with h | h <;>
      rcases hs : jsMapGet sm.sources sourceId with _ | s₁ <;>
      rcases ht : jsMapGet sm.stubSources sourceId with _ | s₂ <;>
      simp_all
  · exact ⟨jsMapSet_nodup_keys sm.sources s.id _ h, jsMapGet_set_self ..⟩

/-- Re-pruning an already pruned queue at a later time prunes from the
original list: the window at `now` is contained in the window at `m ≤ now`
for timestamps that are at most `m`. -/
theorem window_filter_filter (log : List Nat) (m now W : Nat)
    (hlog : ∀ t ∈ log, t ≤ m) (hmn : m ≤ now) :
    (log.filter (fun t => decide (m - t < W))).filter (fun t => decide (now - t < W)) =
      log.filter (fun t => decide (now - t < W)) := by
  induction log with
  | nil => rfl
  | cons a l ih =>
    have ha : a ≤ m := hlog a (List.mem_cons_self a l)
    have ih' := ih (fun t ht => hlog t (List.mem_cons_of_mem a ht))
    by_cases h1 : m - a < W
    · by_cases h2 : now - a < W
      · rw [List.filter_cons, if_pos (decide_eq_true h1), List.filter_cons,
          if_pos (decide_eq_true h2), List.filter_cons, if_pos (decide_eq_true h2), ih']
      · rw [List.filter_cons, if_pos (decide_eq_true h1), List.filter_cons,
          if_neg (by simpa using h2), List.filter_cons, if_neg (by simpa using h2), ih']
    · have h2 : ¬(now - a < W) := by omega
      rw [List.filter_cons, if_neg (by simpa using h1), List.filter_cons,
        if_neg (by simpa using h2), ih']

/-- The sliding-window invariant of `RateLimiter.acquire`, generalized over a
reachable configuration: if every window of width `W` holds at most `N` of
the already-recorded timestamps `log` (all of which are at most `m`), and the
queue is the live window of `log` at `m`, then after any further nondecreasing
acquire times (all at least `m`) every window still holds at most `N`
recorded timestamps. -/
theorem rlRun_window_bound (N W : Nat) (hN : 1 ≤ N) (hW : 1 ≤ W) :
    ∀ (times log : List Nat) (m : Nat),
      times.Chain' (· ≤ ·) →
      (∀ t ∈ log, t ≤ m) →
      (∀ n ∈ times, m ≤ n) →
      (∀ y, log.countP (fun t => decide (y < t) && decide (t ≤ y + W)) ≤ N) →
      ∀ x, (log ++ (rlRun ⟨N, W, log.filter (fun t => decide (m - t < W))⟩ times).1).countP
          (fun t => decide (x < t) && decide (t ≤ x + W)) ≤ N
  | [], log, m, _, _, _, hbound, x => by
    simpa [rlRun] using hbound x
  | now :: rest, log, m, hchain, hlog, htimes, hbound, x => by
    have hmn : m ≤ now := htimes now (List.mem_cons_self _ _)
    have hpair : List.Pairwise (· ≤ ·) (now :: rest) := List.chain'_iff_pairwise.mp hchain
    have hrest_ge : ∀ n ∈ rest, now ≤ n := fun n hn => (List.pairwise_cons.mp hpair).1 n hn
    have hchain' : rest.Chain' (· ≤ ·) :=
      List.chain'_iff_pairwise.mpr (List.pairwise_cons.mp hpair).2
    have hcollapse :
        (log.filter (fun t => decide (m - t < W))).filter (fun t => decide (now - t < W)) =
          log.filter (fun t => decide (now - t < W)) :=
      window_filter_filter log m now W hlog hmn
    rw [rlRun]
    simp only [rlAcquireStep, hcollapse]
    by_cases hfull :
        (log.filter (fun t => decide (now - t < W))).length ≥ N ∧
          log.filter (fun t => decide (now - t < W)) ≠ []
    · rw [if_pos hfull]
      dsimp only
      simpa using
        rlRun_window_bound N W hN hW rest log now hchain'
          (fun t ht => le_trans (hlog t ht) hmn) hrest_ge hbound x
    · rw [if_neg hfull]
      dsimp only
      have hqlen : (log.filter (fun t => decide (now - t < W))).length < N := by
        by_cases hq : log.filter (fun t => decide (now - t < W)) = []
        · rw [hq]
          simpa using hN
        · have hg : ¬(log.filter (fun t => decide (now - t < W))).length ≥ N :=
            fun hA => hfull ⟨hA, hq⟩
          omega
      have hstate : (log ++ [now]).filter (fun t => decide (now - t < W)) =
          log.filter (fun t => decide (now - t < W)) ++ [now] := by
        rw [List.filter_append]
        refine congrArg _ ?_
        rw [List.filter_cons, if_pos (decide_eq_true (by omega : now - now < W)),
          List.filter_nil]
      have hlog' : ∀ t ∈ log ++ [now], t ≤ now := by
        intro t ht
        rcases List.mem_append.mp ht with h | h
        · exact le_trans (hlog t h) hmn
        · simp only [List.mem_singleton] at h
          omega
      have hbound' : ∀ y,
          (log ++ [now]).countP (fun t => decide (y < t) && decide (t ≤ y + W)) ≤ N := by
        intro y
        rw [List.countP_append]
        by_cases hin : (decide (y < now) && decide (now ≤ y + W)) = true
        · have h2 : now ≤ y + W := by
            have := ((Bool.and_eq_true _ _).mp hin).2
            simpa using this
          have hsingle : ([now] : List Nat).countP
              (fun t => decide (y < t) && decide (t ≤ y + W)) = 1 := by
            simp [List.countP_cons, hin]
          have hmono : log.countP (fun t => decide (y < t) && decide (t ≤ y + W)) ≤
              log.countP (fun t => decide (now - t < W)) := by
            refine List.countP_mono_left fun t ht hp => ?_
            have h1 : y < t ∧ t ≤ y + W := by simpa using hp
            simp only [decide_eq_true_eq]
            omega
          have hfin : log.countP (fun t => decide (now - t < W)) =
              (log.filter (fun t => decide (now - t < W))).length :=
            List.countP_eq_length_filter ..
          omega
        · have hsingle : ([now] : List Nat).countP
              (fun t => decide (y < t) && decide (t ≤ y + W)) = 0 := by
            simp only [List.countP_cons, List.countP_nil, hin]
            simp
          rw [hsingle]
          simpa using hbound y
      have hrec := rlRun_window_bound N W hN hW rest (log ++ [now]) now hchain' hlog'
        hrest_ge hbound' x
      rw [hstate] at hrec
      simpa [List.append_assoc] using hrec

/-- **C5**: for a rate limiter with `N ≥ 1` permits per window of `W ≥ 1`
milliseconds, no window of width `W` ever contains more than `N` recorded
request timestamps, for every sequence of completed `acquire` evaluations at
nondecreasing times: a full window makes `acquire` wait (the recursive
re-check) instead of recording. -/
theorem rateLimiter_window_bound (N W : Nat) (times : List Nat)
    (hN : 1 ≤ N) (hW : 1 ≤ W) (hchain : times.Chain' (· ≤ ·)) (x : Nat) :
    (rlRecorded N W times).countP
        (fun t => decide (x < t) && decide (t ≤ x + W)) ≤ N := by
  have h := rlRun_window_bound N W hN hW times [] 0 hchain (by simp) (by simp) (by simp) x
  simpa [rlRecorded] using h

/-- Witness for **C5**: one permit per 5 ms window, acquires at times 0, 1
and 10 — the window starting just after 0 holds at most one recorded time. -/
theorem rateLimiter_window_bound_witness :
    (rlRecorded 1 5 [0, 1, 10]).countP
        (fun t => decide (0 < t) && decide (t ≤ 0 + 5)) ≤ 1 :=
  rateLimiter_window_bound 1 5 [0, 1, 10] (by decide) (by decide)
    (by simp [List.chain'_cons]) 0

/-- Evaluation of the `fetchWithRetry` loop when every attempt throws: the
backoffs are `2^attempt` seconds and the last attempt's error is the final
failure. -/
theorem fetchWithRetryAux_allExn (cc : Bool) (e : Nat → String) :
    ∀ (remaining attempt : Nat) (lastErr : Option String), 1 ≤ remaining →
      fetchWithRetryAux cc (fun i => .exn (e i)) attempt remaining lastErr =
        (.err (e (attempt + remaining - 1)),
          (List.range (remaining - 1)).map (fun k => 2 ^ (attempt + k) * 1000))
  | 0, _, _, h => absurd h (by omega)
  | 1, attempt, lastErr, _ => by
    simp [fetchWithRetryAux]
  | r + 2, attempt, lastErr, _ => by
    have ih := fetchWithRetryAux_allExn cc e (r + 1) (attempt + 1) (some (e attempt)) (by omega)
    have hidx : attempt + 1 + (r + 1) - 1 = attempt + (r + 2) - 1 := by omega
    have hmap : (2 : Nat) ^ attempt * 1000 ::
        (List.range (r + 1 - 1)).map (fun k => 2 ^ (attempt + 1 + k) * 1000) =
        (List.range (r + 2 - 1)).map (fun k => 2 ^ (attempt + k) * 1000) := by
      have h1 : r + 2 - 1 = (r + 1 - 1) + 1 := by omega
      rw [h1, List.range_succ_eq_map, List.map_cons, List.map_map, Nat.add_zero]
      refine congrArg₂ _ rfl ?_
      refine List.map_congr_left fun k _ => ?_
      have h2 : attempt + 1 + k = attempt + Nat.succ k := by omega
      simp only [Function.comp_apply, h2]
    rw [fetchWithRetryAux]
    dsimp only
    rw [if_neg (show ¬(r + 1 = 0) by omega), ih, hidx]
    exact congrArg _ hmap

/-- A response that passes the challenge test has status 403 or 503. -/
theorem challenge_status (r : Resp) (text : String)
    (h : isCloudflareChallenge r text = true) :
    (r.status == 403 || r.status == 503) = true := by
  rw [isCloudflareChallenge] at h
  by_cases hc : ((r.status == 403 || r.status == 503) &&
      (jsIncludes (jsToLower r.server) "cloudflare" ||
       jsIncludes (jsToLower r.server) "cloudflare-nginx")) = true
  · exact ((Bool.and_eq_true _ _).mp hc).1
  · rw [if_neg hc] at h
    exact absurd h (by simp)

/-- A non-final attempt whose response is a challenge sleeps `2^(attempt+1)`
seconds and retries. -/
theorem fetchWithRetryAux_blocked_step
    (out : Nat → Outcome) (attempt rem : Nat) (lastErr : Option String) (r : Resp)
    (hout : out attempt = .resp r) (hch : isCloudflareChallenge r r.body = true) :
    fetchWithRetryAux true out attempt (rem + 2) lastErr =
      ((fetchWithRetryAux true out (attempt + 1) (rem + 1) lastErr).1,
        2 ^ (attempt + 1) * 1000 ::
          (fetchWithRetryAux true out (attempt + 1) (rem + 1) lastErr).2) := by
  have hs := challenge_status r r.body hch
  rw [fetchWithRetryAux, hout]
  try dsimp only
  rw [Bool.true_and, hs, if_pos rfl, hch, if_pos rfl, if_neg (show ¬(rem + 1 = 0) by omega)]

/-- **C4**: a 403/503 response from a cloudflare-identified server whose body
carries challenge markers is treated as blocked: on every non-final attempt
the transport sleeps `2^(attempt+1)` seconds and retries.  In particular,
blocked on attempts 0 and 1 and a 200 on attempt 2 succeeds with total
simulated backoff exactly 2 s + 4 s (`[2000, 4000]` ms). -/
theorem fetchWithRetry_blocked_backoff :
    (∀ (out : Nat → Outcome) (attempt rem : Nat) (lastErr : Option String) (r : Resp),
      out attempt = .resp r → isCloudflareChallenge r r.body = true →
      fetchWithRetryAux true out attempt (rem + 2) lastErr =
        ((fetchWithRetryAux true out (attempt + 1) (rem + 1) lastErr).1,
          2 ^ (attempt + 1) * 1000 ::
            (fetchWithRetryAux true out (attempt + 1) (rem + 1) lastErr).2)) ∧
    (∀ (out : Nat → Outcome) (r0 r1 r2 : Resp),
      out 0 = .resp r0 → out 1 = .resp r1 → out 2 = .resp r2 →
      isCloudflareChallenge r0 r0.body = true → isCloudflareChallenge r1 r1.body = true →
      r2.status = 200 →
      fetchWithRetry out 3 true = (.ok r2, [2000, 4000])) := by
  refine ⟨fetchWithRetryAux_blocked_step, ?_⟩
  intro out r0 r1 r2 h0 h1 h2 hc0 hc1 hs2
  have s2 : (r2.status == 403 || r2.status == 503) = false := by rw [hs2]; decide
  rw [fetchWithRetry, show (3 : Nat) = 1 + 2 from rfl,
    fetchWithRetryAux_blocked_step out 0 1 none r0 h0 hc0,
    show (1 : Nat) + 1 = 0 + 2 from rfl,
    fetchWithRetryAux_blocked_step out 1 0 none r1 h1 hc1,
    show (0 : Nat) + 1 = 0 + 1 from rfl, fetchWithRetryAux]
  rw [show (1 : Nat) + 1 = 2 from rfl, h2]
  try dsimp only
  rw [Bool.true_and, s2]
  norm_num

/-- Witness for **C4**: concrete blocked responses (503, `server: cloudflare`,
`cf-browser-verification` marker) twice, then a plain 200. -/
theorem fetchWithRetry_blocked_backoff_witness :
    fetchWithRetry
        (fun i => if i = 0 then .resp ⟨503, "cloudflare", "cf-browser-verification"⟩
          else if i = 1 then .resp ⟨503, "cloudflare", "cf-browser-verification"⟩
          else .resp ⟨200, "nginx", "<html>ok</html>"⟩) 3 true =
      (.ok ⟨200, "nginx", "<html>ok</html>"⟩, [2000, 4000]) :=
  fetchWithRetry_blocked_backoff.2 _
    ⟨503, "cloudflare", "cf-browser-verification"⟩
    ⟨503, "cloudflare", "cf-browser-verification"⟩
    ⟨200, "nginx", "<html>ok</html>"⟩
    rfl rfl rfl (by decide) (by decide) rfl

/-- **C3, counterexample**: an ordinary non-2xx response (500, no challenge
markers) is *not* retried by `fetchWithRetry`: the very first attempt returns
the response to the caller, with no backoff slept and no error thrown, where
the claim requires `2^attempt` backoffs up to 3 attempts and a final failure
with the last error. -/
theorem fetchWithRetry_no_retry_on_500_counterexample :
    fetchWithRetry (fun _ => .resp ⟨500, "nginx", "Internal Server Error"⟩) 3 true =
      (.ok ⟨500, "nginx", "Internal Server Error"⟩, []) := by
  decide

/-- **C3, amended**: for every request whose attempt ends in a
transport/connection exception, the transport retries with backoff
`2^attempt` seconds up to `maxRetries` attempts (default 3), and when all
attempts are exhausted the call fails with the last error.  A non-2xx
response without challenge markers is, in `fetchWithRetry`, returned to the
caller without retry (see the counterexample); the Bato-service fetch variant
(`cloudflareBypassFetch`) instead converts a non-2xx, non-404 response into a
thrown `HTTP error!` and retries it with the same `2^attempt` backoff,
failing with that error once its 3 attempts are exhausted. -/
theorem fetchWithRetry_backoff_exhaustion :
    (∀ (cc : Bool) (e : Nat → String) (maxRetries : Nat), 1 ≤ maxRetries →
      fetchWithRetry (fun i => .exn (e i)) maxRetries cc =
        (.err (e (maxRetries - 1)),
          (List.range (maxRetries - 1)).map (fun k => 2 ^ k * 1000))) ∧
    cloudflareBypassFetch (fun _ => .resp ⟨500, "nginx", "oops"⟩) =
      (.err "HTTP error! status: 500", [1000, 2000]) := by
  constructor
  · intro cc e maxRetries h
    rw [fetchWithRetry, fetchWithRetryAux_allExn cc e maxRetries 0 none h]
    simp
  · decide

/-- Witness for **C3 (amended)**: three thrown attempts sleep 1 s then 2 s and
fail with the third error. -/
theorem fetchWithRetry_backoff_exhaustion_witness :
    fetchWithRetry (fun i => .exn ("failure " ++ toString i)) 3 true =
      (.err "failure 2", [1000, 2000]) := by
  rw [fetchWithRetry_backoff_exhaustion.1 true (fun i => "failure " ++ toString i) 3 (by decide)]
  decide

/-- `tryBatoDomainsGo` returns exactly the first domain (in list order) whose
fetch yields an `ok` response. -/
theorem tryBatoDomainsGo_eq_find (fetch : String → Outcome) :
    ∀ ds : List String,
      (tryBatoDomainsGo fetch ds).map Prod.snd = ds.find? (domainOk fetch)
  | [] => rfl
  | d :: ds => by
    rw [tryBatoDomainsGo]
    cases hf : fetch d with
    | exn msg =>
      have hd : domainOk fetch d = false := by simp [domainOk, hf]
      rw [List.find?_cons_of_neg _ (by simp [hd])]
      exact tryBatoDomainsGo_eq_find fetch ds
    | resp r =>
      by_cases hok : respOk r = true
      · have hd : domainOk fetch d = true := by simp [domainOk, hf, hok]
        rw [List.find?_cons_of_pos _ (by simp [hd])]
        simp [hok]
      · have hd : domainOk fetch d = false := by
          simp only [domainOk, hf]
          simpa using hok
        rw [List.find?_cons_of_neg _ (by simp [hd])]
        simp only [Bool.not_eq_true] at hok
        simp only [hok, Bool.false_eq_true, if_false]
        exact tryBatoDomainsGo_eq_find fetch ds

/-- `attemptedDomains` is the failing prefix of the candidate list followed by
the first succeeding domain, if any. -/
theorem attemptedDomains_eq (fetch : String → Outcome) :
    ∀ ds : List String,
      attemptedDomains fetch ds =
        ds.takeWhile (fun d => !domainOk fetch d) ++ (ds.find? (domainOk fetch)).toList
  | [] => rfl
  | d :: ds => by
    rw [attemptedDomains]
    cases hf : fetch d with
    | exn msg =>
      have hd : domainOk fetch d = false := by simp [domainOk, hf]
      rw [List.find?_cons_of_neg _ (by simp [hd]), List.takeWhile_cons_of_pos (by simp [hd])]
      rw [attemptedDomains_eq fetch ds]
      rfl
    | resp r =>
      by_cases hok : respOk r = true
      · have hd : domainOk fetch d = true := by simp [domainOk, hf, hok]
        rw [List.find?_cons_of_pos _ (by simp [hd]), List.takeWhile_cons_of_neg (by simp [hd])]
        simp [hok]
      · have hd : domainOk fetch d = false := by
          simp only [domainOk, hf]
          simpa using hok
        rw [List.find?_cons_of_neg _ (by simp [hd]), List.takeWhile_cons_of_pos (by simp [hd])]
        simp only [Bool.not_eq_true] at hok
        simp only [hok, Bool.false_eq_true, if_false]
        rw [attemptedDomains_eq fetch ds]
        rfl

/-- **C1, counterexample**: with the first two domains unreachable and the
third `ok`, the call succeeds via `https://mto.to` — but the candidate list is
the immutable `const BATO_DOMAINS`, so a subsequent call attempts
`https://bato.to` first again: the successful domain is *not* promoted to the
front. -/
theorem tryBatoDomains_no_promotion_counterexample :
    (let fetch : String → Outcome :=
      fun d => if d = "https://mto.to" then .resp ⟨200, "", "ok"⟩ else .exn "connection failed";
     (tryBatoDomains fetch "https://bato.to").1.isSome = true ∧
     (tryBatoDomains fetch "https://bato.to").2 = "https://mto.to" ∧
     BATO_DOMAINS.head? = some "https://bato.to" ∧
     (attemptedDomains fetch BATO_DOMAINS).head? = some "https://bato.to") := by
  decide

/-- **C1, amended**: `tryBatoDomains` iterates the *fixed* candidate list
`BATO_DOMAINS` in its registration order, attempting each domain until the
first whose fetch is an `ok` response (thrown fetches and non-`ok` responses
move to the next candidate); on success the winning domain is recorded in
`CURRENT_BATO_URL` (used only to absolutize relative URLs) and the response
returned, on total failure the call throws with the current URL unchanged.
The candidate list itself is never reordered, so every call — including every
call after a success — attempts the domains in the same fixed order from the
first. -/
theorem tryBatoDomains_fixed_order :
    (∀ fetch : String → Outcome,
      (tryBatoDomainsGo fetch BATO_DOMAINS).map Prod.snd =
        BATO_DOMAINS.find? (domainOk fetch)) ∧
    (∀ (fetch : String → Outcome) (cur : String) (r : Resp) (d : String),
      tryBatoDomainsGo fetch BATO_DOMAINS = some (r, d) →
      tryBatoDomains fetch cur = (some r, d)) ∧
    (∀ (fetch : String → Outcome) (cur : String),
      tryBatoDomainsGo fetch BATO_DOMAINS = none →
      tryBatoDomains fetch cur = (none, cur)) ∧
    (∀ fetch : String → Outcome,
      attemptedDomains fetch BATO_DOMAINS =
        BATO_DOMAINS.takeWhile (fun d => !domainOk fetch d) ++
          (BATO_DOMAINS.find? (domainOk fetch)).toList) := by
  refine ⟨fun fetch => tryBatoDomainsGo_eq_find fetch BATO_DOMAINS,
    fun fetch cur r d h => ?_, fun fetch cur h => ?_,
    fun fetch => attemptedDomains_eq fetch BATO_DOMAINS⟩
  · rw [tryBatoDomains, h]
  · rw [tryBatoDomains, h]

/-- Witness for **C1 (amended)**: the first two domains unreachable, the third
`ok` — the call returns the third domain's response and records that domain. -/
theorem tryBatoDomains_fixed_order_witness :
    tryBatoDomains
        (fun d => if d = "https://mto.to" then .resp ⟨200, "", "ok"⟩ else .exn "connection failed")
        "https://bato.to" =
      (some ⟨200, "", "ok"⟩, "https://mto.to") :=
  tryBatoDomains_fixed_order.2.1
    (fun d => if d = "https://mto.to" then .resp ⟨200, "", "ok"⟩ else .exn "connection failed")
    "https://bato.to" ⟨200, "", "ok"⟩ "https://mto.to" (by decide)

/-- **C2**: the capacity bound fails.  With capacity 2, the sequence
`set a (ttl 10); set b; get a (after a's expiry); set c; set d` leaves
**three** live entries: the expiry path of `get` deletes `a` from the map but
not from `accessOrder`, so the eviction triggered by `set d` shifts the stale
key `a` and its `cache.delete` removes nothing.  The spec's intent (a bounded
LRU map, `delete` *does* clean `accessOrder`) marks this as a slip in the
code. -/
theorem memoryCache_capacity_exceeded_eval :
    (let final : MemoryCache Nat :=
      memRun ⟨[], 2, []⟩
        [.set 0 "a" 1 (some 10), .set 0 "b" 2 none, .get 20 "a",
         .set 20 "c" 3 none, .set 20 "d" 4 none];
     final.maxSize = 2 ∧ final.cache.length = 3 ∧
       final.cache.map Prod.fst = ["b", "c", "d"]) := by
  decide

/-- **C6, counterexample**: an entry written with TTL `0` never expires: the
truthy test `ttl ? Date.now() + ttl : null` stores a `null` expiry, so a read
at time 200, strictly after `cachedAt + ttl = 100`, still returns the value —
in both tiers — where the claim requires absence. -/
theorem cache_ttl_zero_counterexample :
    (memGet (memSet (⟨[], 50, []⟩ : MemoryCache Nat) 100 "k" 7 (some 0)) 200 "k").1 = some 7 ∧
    (getFromStorage (saveToStorage ([] : List (String × MemEntry Nat)) 100 "k" 7 (some 0))
        200 "k").1 = some 7 := by
  decide

/-- **C6, amended**: for every key written with a *positive* TTL `t`, a read
strictly after `cachedAt + t` returns absent and deletes the entry in the
tier read (memory and persistent alike), and a read strictly before
`cachedAt + t` returns the cached value; an entry whose expiry lies in the
past is never served. -/
theorem cache_ttl_boundary {α : Type} (mc : MemoryCache α) (st : List (String × MemEntry α))
    (v : α) (key : String) (t now₀ now₁ : Nat) (ht : 1 ≤ t) :
    (now₀ + t < now₁ →
      (memGet (memSet mc now₀ key v (some t)) now₁ key).1 = none ∧
      jsMapGet (memGet (memSet mc now₀ key v (some t)) now₁ key).2.cache key = none ∧
      (getFromStorage (saveToStorage st now₀ key v (some t)) now₁ key).1 = none ∧
      jsMapGet (getFromStorage (saveToStorage st now₀ key v (some t)) now₁ key).2 key = none) ∧
    (now₁ < now₀ + t →
      (memGet (memSet mc now₀ key v (some t)) now₁ key).1 = some v ∧
      (getFromStorage (saveToStorage st now₀ key v (some t)) now₁ key).1 = some v) := by
  have hx : expiresAtOf now₀ (some t) = some (now₀ + t) := by
    have htz : t ≠ 0 := by omega
    simp [expiresAtOf, htz]
  have hmemget : jsMapGet (memSet mc now₀ key v (some t)).cache key =
      some ⟨v, some (now₀ + t), now₀⟩ := by
    simp only [memSet, hx]
    exact jsMapGet_set_self ..
  have hstget : jsMapGet (saveToStorage st now₀ key v (some t)) key =
      some ⟨v, some (now₀ + t), now₀⟩ := by
    simp only [saveToStorage, hx]
    exact jsMapGet_set_self ..
  constructor
  · intro hlate
    have hexp : entryExpired (some (now₀ + t)) now₁ = true := by
      simp only [entryExpired, ne_eq, Bool.and_eq_true, decide_eq_true_eq, gt_iff_lt]
      omega
    refine ⟨?_, ?_, ?_, ?_⟩ <;>
      simp [memGet, getFromStorage, hmemget, hstget, hexp, jsMapGet_delete_self]
  · intro hearly
    have hexp : entryExpired (some (now₀ + t)) now₁ = false := by
      simp only [entryExpired, ne_eq, Bool.and_eq_false_iff, decide_eq_false_iff_not,
        gt_iff_lt, not_lt]
      omega
    exact ⟨by simp [memGet, hmemget, hexp], by simp [getFromStorage, hstget, hexp]⟩

/-- Witness for **C6 (amended)** at TTL 5, written at 100, read at 106 (absent)
and at 104 (served). -/
theorem cache_ttl_boundary_witness :
    (memGet (memSet (⟨[], 50, []⟩ : MemoryCache Nat) 100 "k" 7 (some 5)) 106 "k").1 = none ∧
    (memGet (memSet (⟨[], 50, []⟩ : MemoryCache Nat) 100 "k" 7 (some 5)) 104 "k").1 = some 7 :=
  ⟨((cache_ttl_boundary ⟨[], 50, []⟩ [] 7 "k" 5 100 106 (by decide)).1 (by decide)).1,
   ((cache_ttl_boundary ⟨[], 50, []⟩ [] 7 "k" 5 100 104 (by decide)).2 (by decide)).1⟩

/-- The fixture markup of the listing scenario: three `<article>` listing
blocks with resolvable identifiers and titles `A`, `B`, `C`, and one
malformed block with no identifier. -/
def listingFixture : String :=
  "<article><a href=\"/series/aaa1\" title=\"A\">x</a></article>" ++
  "<article><a href=\"/series/bbb2\" title=\"B\">x</a></article>" ++
  "<article><a href=\"/series/ccc3\" title=\"C\">x</a></article>" ++
  "<article><p>Broken block with no link</p></article>"

/-- **C7, counterexample**: discarding is *not* equivalent to a missing
identifier — `searchBatoManga` ends with `results.slice(0, 20)`, so with 21
candidate blocks that all carry resolvable identifiers only 20 records are
returned and the 21st block is discarded despite its identifier. -/
theorem bato_listing_slice_counterexample :
    (let cards := (List.range 21).map
        (fun i => "<a href=\"/series/m" ++ toString i ++ "\">t</a>");
     cards.length = 21 ∧
     cards.all (fun c => idTruthy (parseMangaCard "https://bato.to" c).id) = true ∧
     (processCards "https://bato.to" cards).length = 20) := by
  decide

/-- **C7, amended**: among the first 20 surviving records (the source caps the
result with `slice(0, 20)`), a candidate block is discarded exactly when no
truthy identifier can be mined from it: the record count is the number of
id-bearing blocks, capped at 20; missing secondary fields leave a partial
record.  In particular the 3-good-blocks-plus-1-malformed fixture extracts to
exactly the 3 identified records (with their titles, empty description and no
cover). -/
theorem bato_listing_discard_iff_no_id :
    (∀ (cur : String) (cards : List String),
      (processCards cur cards).length =
        min 20 (cards.countP (fun c => idTruthy (parseMangaCard cur c).id))) ∧
    (searchBatoFromHtml "https://bato.to" listingFixture).map (fun r => (r.id, r.title)) =
      [("aaa1", "A"), ("bbb2", "B"), ("ccc3", "C")] := by
  constructor
  · intro cur cards
    rw [processCards, List.length_take, length_filterMap_eq_countP]
    refine congrArg _ (List.countP_congr fun c _ => ?_)
    by_cases h : idTruthy (parseMangaCard cur c).id = true <;> simp [h]
  · decide

/-- **C8**: the extraction of chapter pages is a total function of the
markup: malformed JavaScript image arrays (`JSON.parse` throwing) and
non-string items (`TypeError` in the mapping) are contained by the
per-pattern `catch` and fall through to the next strategy, and when every
strategy fails the result is the empty list, never an exception.  The last
conjunct evaluates a markup whose image array is unparseable JSON: extraction
still falls back to the all-`img`-tags strategy instead of raising. -/
theorem chapterPages_total_failure_empty :
    (∀ (cur : String) (html : String),
      tryJsPatterns cur html.data jsPatterns = none →
      tryImgPatterns cur html.data imgPatterns = none →
      (globalMatches imgAllPat html.data).filter
          (fun m => looksLikePageUrl (String.mk m.2)) = [] →
      getBatoChapterPagesFromHtml cur html = []) ∧
    getBatoChapterPagesFromHtml "https://bato.to" "" = [] ∧
    getBatoChapterPagesFromHtml "https://bato.to"
        "const images = [,,]; <img src=\"/pages/01.jpg\">" =
      [⟨"https://bato.to/pages/01.jpg", 1⟩] := by
  refine ⟨fun cur html h1 h2 h3 => ?_, by decide, by decide⟩
  rw [getBatoChapterPagesFromHtml, h1, h2]
  simp [h3]

/-- Witness for **C8** on a markup with no image data at all. -/
theorem chapterPages_total_failure_empty_witness :
    getBatoChapterPagesFromHtml "https://x.test" "<p>nothing here</p>" = [] :=
  chapterPages_total_failure_empty.1 "https://x.test" "<p>nothing here</p>"
    (by decide) (by decide) (by decide)

/-- Witness for **C9 (amended)**: a registry with one registered source is
unchanged by `getSourceOrStub` of that id. -/
theorem registry_lookup_frame_witness :
    (jsMapGet (registerSource ⟨[], []⟩
        { id := "bato_to", name := "Bato", lang := "en", baseUrl := "https://bato.to",
          sourceType := "http", versionId := 1, isNsfw := false, isConfigurable := false,
          isStub := false }).sources "bato_to").isSome ∧
    (getSourceOrStub (registerSource ⟨[], []⟩
        { id := "bato_to", name := "Bato", lang := "en", baseUrl := "https://bato.to",
          sourceType := "http", versionId := 1, isNsfw := false, isConfigurable := false,
          isStub := false }) "bato_to").2 =
      registerSource ⟨[], []⟩
        { id := "bato_to", name := "Bato", lang := "en", baseUrl := "https://bato.to",
          sourceType := "http", versionId := 1, isNsfw := false, isConfigurable := false,
          isStub := false } :=
  ⟨by decide, registry_lookup_frame.2.1 _ "bato_to" (Or.inl (by decide))⟩

end Inkora
